import Mathlib

/-!
Verification development for the newsvid video-assembly pipeline (`vid.py`).

Shallow embedding conventions:
* Python floats (durations, scroll arithmetic) are modelled as exact rationals `ℚ`.
* Subprocess calls and the filesystem are abstracted into explicit inputs
  (probe outcomes, existence flags, success flags for each external `ffmpeg` call).
* A Python function that can raise an uncaught exception is modelled with `PyResult`;
  a function that returns `None` on error returns `Option`.
-/

namespace NewsVid

/-- Result of running a Python function: either a normal return value or an
uncaught exception (identified by its Python class name). -/
inductive PyResult (α : Type) where
  | ret (a : α)
  | raised (exc : String)
deriving DecidableEq, Repr

/-! ## Media prober: `get_video_info` (vid.py lines 199-248)

The ffprobe subprocess output is abstracted into `ProbeResult`:
`fail` covers `subprocess.CalledProcessError` and `json.JSONDecodeError`
(both caught by the `except` clause), and `ok streams?` is a successfully
parsed JSON object, where `streams? = none` means the JSON had no
`streams` key (the code then uses the default `[{}]`, i.e. one empty
stream dict) and `some l` is the parsed `streams` array.

The first stream dict is abstracted to its `width`/`height` fields
(`none` when the key is absent) and its `duration` field, which can be
absent, present but not parseable by `float` (raising `ValueError`,
which the `except` clause catches), or a parsed number. -/

/-- The `duration` entry of a stream dict: absent, present but rejected by
`float(...)` with a `ValueError`, or a parsed value. -/
inductive DurField where
  | absent
  | unparsable
  | val (q : ℚ)
deriving DecidableEq, Repr

/-- Abstraction of the first element of the ffprobe `streams` array. -/
structure StreamInfo where
  width : Option ℤ
  height : Option ℤ
  duration : DurField
deriving DecidableEq, Repr

/-- Abstraction of the ffprobe subprocess outcome for `get_video_info`. -/
inductive ProbeResult where
  | fail
  | ok (streams : Option (List StreamInfo))
deriving DecidableEq, Repr

/-- The dictionary returned by `get_video_info`.  The `duration` entry is an
`Option ℚ` because the code can store the `None` returned by the
`get_duration` fallback. -/
structure VideoInfoDict where
  duration : Option ℚ
  width : ℤ
  height : ℤ
deriving DecidableEq, Repr

/-- The sentinel dictionary returned on a caught error
(vid.py line 248): duration 0, width 1920, height 1080. -/
def sentinelInfo : VideoInfoDict := { duration := some 0, width := 1920, height := 1080 }

/-- Model of `get_video_info` (vid.py lines 199-248).  `fallback` is the result
of the `get_duration(video_file)` container-level fallback call, which itself
returns `None` on failure (vid.py lines 36-62).

Control flow of the source:
* a caught subprocess/JSON/Value error returns the sentinel;
* `info.get('streams', [{}])[0]` raises an uncaught `IndexError` when the
  parsed JSON has an empty `streams` array;
* if the stream dict has no `duration` key, `duration = get_duration(...)`
  (possibly `None`); otherwise `float(...)` of the entry, a `ValueError`
  from which is caught and yields the sentinel;
* `width`/`height` default to 1920/1080 when absent. -/
def get_video_info (probe : ProbeResult) (fallback : Option ℚ) : PyResult VideoInfoDict :=
  match probe with
  | .fail => .ret sentinelInfo
  | .ok streamsOpt =>
    let streams := match streamsOpt with
      | none => [({ width := none, height := none, duration := .absent } : StreamInfo)]
      | some l => l
    match streams with
    | [] => .raised "IndexError"
    | s :: _ =>
      match s.duration with
      | .unparsable => .ret sentinelInfo
      | .absent =>
          .ret { duration := fallback, width := s.width.getD 1920, height := s.height.getD 1080 }
      | .val d =>
          .ret { duration := some d, width := s.width.getD 1920, height := s.height.getD 1080 }

/-! ## Caption overlay scroll-speed arithmetic (vid.py lines 118-123) -/

/-- Model of `estimated_lines = len(script_content) / 50` (vid.py line 121). -/
def estimated_lines (script_len : ℕ) : ℚ := (script_len : ℚ) / 50

/-- Model of `scroll_height = estimated_lines * font_size * 1.5` (vid.py line 122). -/
def scroll_height (script_len : ℕ) (font_size : ℚ) : ℚ :=
  estimated_lines script_len * font_size * (3 / 2)

/-- Model of `scroll_speed = scroll_height / duration` (vid.py line 123). -/
def scroll_speed (script_len : ℕ) (font_size duration : ℚ) : ℚ :=
  scroll_height script_len font_size / duration

/-! ## Duration planner: `create_video_list_file` (vid.py lines 250-317)

The Python function receives file paths and probes each with `get_video_info`;
the probing is external I/O, so the model receives the probed `MediaInfo`
records directly.  `random.shuffle` is abstracted by a parameter
`shuffles : ℕ → List MediaInfo` giving the order used by each pass of the
`while` loop; theorems assume each pass is a permutation of the input list.
The unbounded `while current_duration < target_duration` loop is modelled with
a fuel argument counting loop-guard evaluations: `none` means the guard was
still true when the fuel ran out, and an actual run of the source corresponds
to the existence of a sufficient fuel. -/

/-- The probed record built for each video (vid.py lines 277-282): path plus
the `get_video_info` fields. -/
structure MediaInfo where
  path : String
  duration : ℚ
  width : ℤ
  height : ℤ
deriving DecidableEq, Repr

/-- Summed duration of a clip list. -/
def sumDur (l : List MediaInfo) : ℚ := (l.map MediaInfo.duration).sum

/-- Model of the inner `for info in shuffled_videos` loop (vid.py lines
297-303): append each entry and accumulate its duration, breaking as soon as
the running total reaches or exceeds the target.  Returns the appended entries
together with the updated running total. -/
def innerLoop (target : ℚ) : List MediaInfo → ℚ → List MediaInfo × ℚ
  | [], cur => ([], cur)
  | info :: rest, cur =>
      let cur2 := cur + info.duration
      if target ≤ cur2 then ([info], cur2)
      else
        let r := innerLoop target rest cur2
        (info :: r.1, r.2)

/-- Model of the outer `while current_duration < target_duration` loop
(vid.py lines 292-303), with fuel bounding the number of guard evaluations.
`pass` indexes the shuffle used by each iteration. -/
def planLoop (shuffles : ℕ → List MediaInfo) (target : ℚ) :
    ℕ → ℕ → List MediaInfo → ℚ → Option (List MediaInfo × ℚ)
  | 0, _, _, _ => none
  | fuel + 1, pass, acc, cur =>
      if cur < target then
        let r := innerLoop target (shuffles pass) cur
        planLoop shuffles target fuel (pass + 1) (acc ++ r.1) r.2
      else some (acc, cur)

/-- Model of `create_video_list_file` (vid.py lines 250-317), returning the
final video list (the temporary concat file just lists its entries in order;
the returned path is filesystem I/O outside the model).  An empty input list
returns `(None, [])` immediately, i.e. the empty plan. -/
def create_video_list_file (shuffles : ℕ → List MediaInfo) (fuel : ℕ)
    (videos : List MediaInfo) (target : ℚ) : Option (List MediaInfo) :=
  if videos = [] then some []
  else (planLoop shuffles target fuel 0 [] 0).map Prod.fst

/-! ## Sequence composer: the `input_videos` construction
(vid.py lines 464-488) inside `combine_videos_with_audio`.

Inputs are the scaled intro (if any), the scaled content clip paths, and the
three durations the code has computed just before this block. -/

/-- Model of vid.py lines 464-488: start from the intro (if any), then either
append `ceil(remaining / total)` whole copies of the content sequence when the
content is shorter than the remaining runway, append it once when it is not,
or — when the guard `total_content_duration > 0 and remaining_duration > 0`
fails — reassign `input_videos = scaled_videos` whenever the content list is
non-empty (dropping any intro), keeping the intro-only list otherwise. -/
def build_input_videos (scaled_intro : Option String) (scaled_videos : List String)
    (intro_duration total_content_duration target_duration : ℚ) : List String :=
  let input0 := match scaled_intro with
    | some iv => [iv]
    | none => []
  let remaining_duration := target_duration - intro_duration
  if 0 < total_content_duration ∧ 0 < remaining_duration then
    if total_content_duration < remaining_duration then
      input0 ++ (List.replicate
        (⌈remaining_duration / total_content_duration⌉).toNat scaled_videos).flatten
    else
      input0 ++ scaled_videos
  else if scaled_videos ≠ [] then
    scaled_videos
  else
    input0

/-- The silent concat encode passes `-t target_duration` (vid.py line 519), so
its output duration is the concatenated input duration truncated to that
limit. -/
def concat_stage_duration (input_durations : List ℚ) (limit : ℚ) : ℚ :=
  min input_durations.sum limit

/-! ## `combine_videos_with_audio` control flow (vid.py lines 319-580)

The model tracks the outcome fields the claims are about: the Python return
value, where the final write was directed, whether that write is known to have
completed, and whether `add_scrolling_text` was invoked.  Each external
`ffmpeg` invocation is abstracted by a success flag; a `False` flag stands for
a non-zero exit, i.e. a `subprocess.CalledProcessError` reaching the `except`
clause at vid.py line 575, which returns `None`.  The target-duration
computation (lines 382-390) and the input-list construction (modelled
separately by `build_input_videos`) do not affect these fields and are
omitted.  Note that `add_scrolling_text` catches all its own exceptions and
returns `None` on failure (lines 189-197), so a failing overlay never raises
into `combine_videos_with_audio`; the code at line 560 discards that return
value, and line 573 returns `output_file` (the bare filename) regardless. -/

/-- Environment for one run of `combine_videos_with_audio`: filesystem facts
and the success of each external subprocess. -/
structure CombineEnv where
  introExists : Bool
  videoFiles : List String
  introScaleOk : Bool
  contentScaleOk : Bool
  concatOk : Bool
  audioGiven : Bool
  audioExists : Bool
  muxOk : Bool
  scriptExists : Bool
  overlayOk : Bool
deriving DecidableEq, Repr

/-- Observable outcome of a `combine_videos_with_audio` run. -/
structure CombineOutcome where
  result : Option String
  writeTarget : Option String
  writeComplete : Bool
  overlayCalled : Bool
deriving DecidableEq, Repr

/-- Model of `combine_videos_with_audio` (vid.py lines 319-580).  Branches, in
source order: no discovered video files (lines 369-371, returns `None`);
intro scaling failure (line 419); content scaling failure (line 444);
concat failure (line 527); then the audio branch (lines 530-566): mux failure
(line 553), overlay invocation on `output_path` when a script exists (lines
556-561, return value unchecked), plain copy to `output_path` otherwise; else
the no-audio copy (lines 567-571).  On every path that completes the `with`
block, line 573 returns `output_file`. -/
def combine_videos_with_audio (e : CombineEnv) (output_dir output_file : String) :
    CombineOutcome :=
  if e.videoFiles = [] then
    { result := none, writeTarget := none, writeComplete := false, overlayCalled := false }
  else if e.introExists ∧ ¬ e.introScaleOk then
    { result := none, writeTarget := none, writeComplete := false, overlayCalled := false }
  else if ¬ e.contentScaleOk then
    { result := none, writeTarget := none, writeComplete := false, overlayCalled := false }
  else if ¬ e.concatOk then
    { result := none, writeTarget := none, writeComplete := false, overlayCalled := false }
  else
    let output_path := output_dir ++ "/" ++ output_file
    if e.audioGiven ∧ e.audioExists then
      if ¬ e.muxOk then
        { result := none, writeTarget := none, writeComplete := false, overlayCalled := false }
      else if e.scriptExists then
        { result := some output_file, writeTarget := some output_path,
          writeComplete := e.overlayOk, overlayCalled := true }
      else
        { result := some output_file, writeTarget := some output_path,
          writeComplete := true, overlayCalled := false }
    else
      { result := some output_file, writeTarget := some output_path,
        writeComplete := true, overlayCalled := false }

/-- Concrete environment: every stage succeeds, audio and script both present. -/
def envAllOk : CombineEnv :=
  { introExists := false, videoFiles := ["clip1.mp4"], introScaleOk := true,
    contentScaleOk := true, concatOk := true, audioGiven := true,
    audioExists := true, muxOk := true, scriptExists := true, overlayOk := true }

/-- Concrete environment: script file present but the audio file absent;
every subprocess succeeds. -/
def envNoAudioScript : CombineEnv :=
  { envAllOk with audioExists := false }

/-- Concrete environment: audio and script present, every earlier stage
succeeds, but the overlay's ffmpeg fails. -/
def envOverlayFail : CombineEnv :=
  { envAllOk with overlayOk := false }

/-- The inner loop's updated total is the entry total plus the sum of the
appended entries. -/
theorem innerLoop_sum (target : ℚ) :
    ∀ (l : List MediaInfo) (cur : ℚ),
      (innerLoop target l cur).2 = cur + sumDur (innerLoop target l cur).1
  | [], cur => by simp [innerLoop, sumDur]
  | info :: rest, cur => by
      by_cases h : target ≤ cur + info.duration
      · simp [innerLoop, h, sumDur]
      · have ih := innerLoop_sum target rest (cur + info.duration)
        simp only [innerLoop, if_neg h, sumDur, List.map_cons, List.sum_cons] at *
        rw [ih]; ring

/-- Every proper prefix of the entries appended by the inner loop keeps the
running total strictly below the target: each append happens only while the
total is still short. -/
theorem innerLoop_prefix_lt (target : ℚ) :
    ∀ (l : List MediaInfo) (cur : ℚ), cur < target →
      ∀ k < (innerLoop target l cur).1.length,
        cur + sumDur ((innerLoop target l cur).1.take k) < target
  | [], cur, hcur => by simp [innerLoop]
  | info :: rest, cur, hcur => by
      by_cases h : target ≤ cur + info.duration
      · intro k hk
        simp only [innerLoop, if_pos h, List.length_cons, List.length_nil] at hk
        interval_cases k
        · simpa [sumDur] using hcur
      · intro k hk
        simp only [innerLoop, if_neg h, List.length_cons] at hk
        match k with
        | 0 => simpa [sumDur] using hcur
        | j + 1 =>
            have hcur2 : cur + info.duration < target := lt_of_not_le h
            have ih := innerLoop_prefix_lt target rest (cur + info.duration) hcur2 j
              (by omega)
            simp only [innerLoop, if_neg h, List.take_succ_cons, sumDur, List.map_cons,
              List.sum_cons] at *
            calc cur + (info.duration + (((innerLoop target rest
                    (cur + info.duration)).1.take j).map MediaInfo.duration).sum)
                = cur + info.duration + (((innerLoop target rest
                    (cur + info.duration)).1.take j).map MediaInfo.duration).sum := by ring
              _ < target := ih

/-- The inner loop either reaches the target or consumes the whole pass list. -/
theorem innerLoop_complete (target : ℚ) :
    ∀ (l : List MediaInfo) (cur : ℚ),
      target ≤ (innerLoop target l cur).2 ∨ (innerLoop target l cur).1 = l
  | [], cur => Or.inr rfl
  | info :: rest, cur => by
      by_cases h : target ≤ cur + info.duration
      · left; simpa [innerLoop, h] using h
      · rcases innerLoop_complete target rest (cur + info.duration) with h2 | h2
        · left; simpa [innerLoop, h] using h2
        · right; simp [innerLoop, h, h2]

/-- Summed duration distributes over append. -/
theorem sumDur_append (l1 l2 : List MediaInfo) : sumDur (l1 ++ l2) = sumDur l1 + sumDur l2 := by
  simp [sumDur]

/-- Permuting a clip list preserves its summed duration. -/
theorem sumDur_perm {l1 l2 : List MediaInfo} (h : l1.Perm l2) : sumDur l1 = sumDur l2 :=
  (h.map MediaInfo.duration).sum_eq

/-- Appending an inner-loop pass to an accumulator that satisfies the
strict-prefix invariant preserves that invariant. -/
theorem prefix_lt_append (target : ℚ) (acc added : List MediaInfo) (cur : ℚ)
    (hcur : cur = sumDur acc) (hlt : cur < target)
    (hacc : ∀ k < acc.length, sumDur (acc.take k) < target)
    (hadd : ∀ j < added.length, cur + sumDur (added.take j) < target) :
    ∀ k < (acc ++ added).length, sumDur ((acc ++ added).take k) < target := by
  intro k hk
  rw [List.take_append_eq_append_take, sumDur_append]
  rcases lt_or_le k acc.length with hcase | hcase
  · have h0 : k - acc.length = 0 := by omega
    rw [h0]
    simpa [sumDur] using hacc k hcase
  · have h1 : acc.take k = acc := List.take_of_length_le hcase
    have h2 : k - acc.length < added.length := by
      simp only [List.length_append] at hk; omega
    rw [h1, ← hcur]
    exact hadd (k - acc.length) h2

/-- Invariant of the outer loop: whenever `planLoop` returns, the returned
total equals the summed duration of the returned plan, the target has been
reached, and every proper prefix of the plan is strictly below the target
(i.e. no entry was appended after the threshold was first met). -/
theorem planLoop_invariant (shuffles : ℕ → List MediaInfo) (target : ℚ) :
    ∀ (fuel pass : ℕ) (acc : List MediaInfo) (cur : ℚ) (plan : List MediaInfo) (c : ℚ),
      cur = sumDur acc →
      (∀ k < acc.length, sumDur (acc.take k) < target) →
      planLoop shuffles target fuel pass acc cur = some (plan, c) →
      c = sumDur plan ∧ target ≤ c ∧ ∀ k < plan.length, sumDur (plan.take k) < target
  | 0, pass, acc, cur, plan, c => by
      intro _ _ h
      simp [planLoop] at h
  | fuel + 1, pass, acc, cur, plan, c => by
      intro hcur hacc h
      by_cases hg : cur < target
      · simp only [planLoop, if_pos hg] at h
        have hsum := innerLoop_sum target (shuffles pass) cur
        have hpre := innerLoop_prefix_lt target (shuffles pass) cur hg
        exact planLoop_invariant shuffles target fuel (pass + 1)
          (acc ++ (innerLoop target (shuffles pass) cur).1)
          (innerLoop target (shuffles pass) cur).2 plan c
          (by rw [hsum, sumDur_append, hcur])
          (prefix_lt_append target acc _ cur hcur hg hacc hpre) h
      · simp only [planLoop, if_neg hg, Option.some.injEq, Prod.mk.injEq] at h
        obtain ⟨h1, h2⟩ := h
        exact ⟨h2 ▸ h1 ▸ hcur, h2 ▸ le_of_not_lt hg, h1 ▸ hacc⟩

/-- Termination of the outer loop: with positive total pass duration, fuel
`n + 1` suffices as soon as `n` full passes would cover the remaining gap. -/
theorem planLoop_terminates (shuffles : ℕ → List MediaInfo) (videos : List MediaInfo)
    (target : ℚ) (hperm : ∀ n, (shuffles n).Perm videos) (hpos : 0 < sumDur videos) :
    ∀ (n pass : ℕ) (acc : List MediaInfo) (cur : ℚ), target ≤ cur + n * sumDur videos →
      ∃ res, planLoop shuffles target (n + 1) pass acc cur = some res
  | 0, pass, acc, cur => by
      intro hcover
      push_cast at hcover
      have hg : ¬ cur < target := not_lt.mpr (by linarith [hcover])
      exact ⟨(acc, cur), by simp [planLoop, hg]⟩
  | n + 1, pass, acc, cur => by
      intro hcover
      by_cases hg : cur < target
      · have hnext : target ≤ (innerLoop target (shuffles pass) cur).2 + n * sumDur videos := by
          rcases innerLoop_complete target (shuffles pass) cur with hc | hc
          · have : (0 : ℚ) ≤ n * sumDur videos := by positivity
            linarith
          · have hsum := innerLoop_sum target (shuffles pass) cur
            rw [hc] at hsum
            rw [hsum, sumDur_perm (hperm pass)]
            push_cast at hcover ⊢
            linarith
        obtain ⟨res, hres⟩ := planLoop_terminates shuffles videos target hperm hpos n
          (pass + 1) (acc ++ (innerLoop target (shuffles pass) cur).1)
          (innerLoop target (shuffles pass) cur).2 hnext
        exact ⟨res, by simpa [planLoop, hg] using hres⟩
      · exact ⟨(acc, cur), by simp [planLoop, hg]⟩

/-- When every clip has duration 0 and the running total is still short of the
target, the inner loop appends the whole pass list and leaves the total
unchanged. -/
theorem innerLoop_all_zero (target : ℚ) :
    ∀ (l : List MediaInfo) (cur : ℚ), (∀ i ∈ l, i.duration = 0) → cur < target →
      innerLoop target l cur = (l, cur)
  | [], cur => by intro _ _; rfl
  | info :: rest, cur => by
      intro hz hlt
      have hd : info.duration = 0 := hz info (by simp)
      have ih := innerLoop_all_zero target rest cur
        (fun i hi => hz i (by simp [hi])) hlt
      simp only [innerLoop, hd, add_zero, ih]
      rw [if_neg (not_le.mpr hlt)]

/-- When every clip has duration 0 and the target is positive, the outer loop
exhausts any amount of fuel without returning: the guard never becomes false. -/
theorem planLoop_all_zero (shuffles : ℕ → List MediaInfo) (videos : List MediaInfo)
    (target : ℚ) (hperm : ∀ n, (shuffles n).Perm videos)
    (hzero : ∀ i ∈ videos, i.duration = 0) (htgt : 0 < target) :
    ∀ (fuel pass : ℕ) (acc : List MediaInfo),
      planLoop shuffles target fuel pass acc 0 = none
  | 0, pass, acc => rfl
  | fuel + 1, pass, acc => by
      have hz : ∀ i ∈ shuffles pass, i.duration = 0 :=
        fun i hi => hzero i ((hperm pass).mem_iff.mp hi)
      have hil := innerLoop_all_zero target (shuffles pass) 0 hz htgt
      have ih := planLoop_all_zero shuffles videos target hperm hzero htgt fuel
        (pass + 1) (acc ++ shuffles pass)
      simp only [planLoop, if_pos htgt, hil, ih]

/-! ## Theorems for claims C5 and C9 -/

/-- Claim C5 (code bug): the claim (and the function's own docstring, which
promises default values whenever the information cannot be determined) says
`get_video_info` never raises and on any failure returns exactly the sentinel,
with the returned duration never absent or `None`.  Two probe outcomes violate
this: an ffprobe output whose `streams` array is empty (e.g. an audio-only
file) makes `info.get('streams', [{}])[0]` raise an uncaught `IndexError`, and
a stream dict without a `duration` key combined with a failed `get_duration`
fallback makes the function return a dict whose duration is `None` (and whose
width/height are the probed ones, not the sentinel's). -/
theorem c5_code_bug_eval :
    get_video_info (ProbeResult.ok (some [])) none = PyResult.raised "IndexError" ∧
    get_video_info
        (ProbeResult.ok (some [{ width := some 640, height := some 480, duration := .absent }]))
        none
      = PyResult.ret { duration := none, width := 640, height := 480 } := by
  constructor <;> rfl

/-- Exact characterization of the prober's failure modes: on a caught probe
failure (subprocess error, JSON decode error, or a `ValueError` from an
unparsable stream duration) `get_video_info` returns the sentinel
`duration=0, width=1920, height=1080` without raising; but when the parsed
output has an empty `streams` array an uncaught `IndexError` propagates, and
when the stream dict lacks a `duration` key the returned duration is whatever
the container-level fallback produced, which is `None` when that fallback also
failed. -/
theorem get_video_info_failure_cases (fallback : Option ℚ) (s : StreamInfo)
    (rest : List StreamInfo) :
    get_video_info ProbeResult.fail fallback = PyResult.ret sentinelInfo ∧
    (s.duration = DurField.unparsable →
      get_video_info (ProbeResult.ok (some (s :: rest))) fallback = PyResult.ret sentinelInfo) ∧
    get_video_info (ProbeResult.ok (some [])) fallback = PyResult.raised "IndexError" ∧
    (s.duration = DurField.absent →
      get_video_info (ProbeResult.ok (some (s :: rest))) fallback =
        PyResult.ret { duration := fallback, width := s.width.getD 1920,
                       height := s.height.getD 1080 }) := by
  refine ⟨rfl, fun h => ?_, rfl, fun h => ?_⟩
  · simp [get_video_info, h]
  · simp [get_video_info, h]

/-- The prober's failure-mode characterization at concrete inputs. -/
theorem get_video_info_failure_cases_inst :
    get_video_info ProbeResult.fail none = PyResult.ret sentinelInfo ∧
    get_video_info
        (ProbeResult.ok (some [{ width := some 2, height := some 3,
                                 duration := DurField.unparsable }])) none
      = PyResult.ret sentinelInfo := by
  have h := get_video_info_failure_cases none
      { width := some 2, height := some 3, duration := DurField.unparsable } []
  exact ⟨h.1, h.2.1 rfl⟩

/-- Claim C9: for every script text, font size and positive video duration, the
computed scroll speed equals `(estimatedLines * fontSize * 1.5) / videoDuration`
with `estimatedLines` the script character count divided by the fixed constant
50 (Python floats modelled as exact rationals). -/
theorem c9_scroll_speed_formula (script_len : ℕ) (font_size duration : ℚ)
    (hd : 0 < duration) :
    scroll_speed script_len font_size duration =
      ((script_len : ℚ) / 50 * font_size * (3 / 2)) / duration := by
  rfl

/-- Claim C9 witness: script of 100 characters, font size 36, duration 10 s
gives scroll speed 10.8 px/s. -/
theorem c9_scroll_speed_witness :
    (0 : ℚ) < 10 ∧ scroll_speed 100 36 10 = (54 : ℚ) / 5 := by
  refine ⟨by norm_num, ?_⟩
  rw [c9_scroll_speed_formula 100 36 10 (by norm_num)]
  norm_num

/-- Summed durations of a flattened replication: `n` whole copies of the
content sequence contribute `n` times its summed duration. -/
theorem sum_map_flatten_replicate (d : String → ℚ) (n : ℕ) (l : List String) :
    (((List.replicate n l).flatten).map d).sum = n * (l.map d).sum := by
  induction n with
  | zero => simp
  | succ k ih =>
      simp only [List.replicate_succ, List.flatten_cons, List.map_append, List.sum_append, ih]
      push_cast
      ring

/-! ## Theorems for the planner claims C3, C8, C10 -/

/-- Claim C3 counterexample: the claim quantifies over every non-empty clip
list and positive target, but when every probed duration is 0 (each probe
degraded to the sentinel) the `while` loop never makes progress, so no amount
of fuel makes the planner return: the plan does not exist as stated. -/
theorem c3_counterexample :
    ¬ ∃ (fuel : ℕ) (plan : List MediaInfo),
        create_video_list_file (fun _ => [⟨"a.mp4", 0, 1920, 1080⟩]) fuel
          [⟨"a.mp4", 0, 1920, 1080⟩] 1 = some plan := by
  rintro ⟨fuel, plan, h⟩
  have hz := planLoop_all_zero (fun _ => [⟨"a.mp4", 0, 1920, 1080⟩])
      [⟨"a.mp4", 0, 1920, 1080⟩] 1 (fun _ => List.Perm.refl _)
      (by intro i hi; simp only [List.mem_singleton] at hi; rw [hi]) (by norm_num)
      fuel 0 []
  rw [create_video_list_file, if_neg (by simp), hz] at h
  simp at h

/-- Claim C3 amended: for every non-empty clip list whose summed probed
duration is positive and every targetDuration > 0, the planner terminates
(some fuel suffices) with a plan whose summed duration reaches the target,
and no entry is appended after the running sum first reaches it: every proper
prefix of the plan sums to strictly less than the target.  (The extra
positivity hypothesis is forced: with all probed durations 0 the loop never
terminates, see the counterexample.) -/
theorem c3_planner_coverage (shuffles : ℕ → List MediaInfo) (videos : List MediaInfo)
    (target : ℚ) (hne : videos ≠ []) (htgt : 0 < target) (hpos : 0 < sumDur videos)
    (hperm : ∀ n, (shuffles n).Perm videos) :
    ∃ (fuel : ℕ) (plan : List MediaInfo),
      create_video_list_file shuffles fuel videos target = some plan ∧
      target ≤ sumDur plan ∧
      ∀ k < plan.length, sumDur (plan.take k) < target := by
  obtain ⟨n, hn⟩ := Archimedean.arch target hpos
  have hcover : target ≤ 0 + n * sumDur videos := by
    rw [zero_add]
    simpa [nsmul_eq_mul] using hn
  obtain ⟨⟨plan, c⟩, hres⟩ :=
    planLoop_terminates shuffles videos target hperm hpos n 0 [] 0 hcover
  have hinv := planLoop_invariant shuffles target (n + 1) 0 [] 0 plan c
    (by simp [sumDur]) (by simp) hres
  refine ⟨n + 1, plan, ?_, hinv.1 ▸ hinv.2.1, hinv.2.2⟩
  rw [create_video_list_file, if_neg hne, hres]
  rfl

/-- Claim C3 amended, witness: a single 1-second clip and target 2 seconds. -/
theorem c3_planner_coverage_witness :
    ∃ (fuel : ℕ) (plan : List MediaInfo),
      create_video_list_file (fun _ => [⟨"b.mp4", 1, 1920, 1080⟩]) fuel
        [⟨"b.mp4", 1, 1920, 1080⟩] 2 = some plan ∧
      (2 : ℚ) ≤ sumDur plan ∧
      ∀ k < plan.length, sumDur (plan.take k) < 2 :=
  c3_planner_coverage (fun _ => [⟨"b.mp4", 1, 1920, 1080⟩]) [⟨"b.mp4", 1, 1920, 1080⟩] 2
    (by simp) (by norm_num) (by norm_num [sumDur]) (fun _ => List.Perm.refl _)

/-- Claim C8: an empty clip list returns the empty plan immediately, and a
target ≤ 0 makes the `while` guard false before anything is appended, so the
plan is empty (one guard evaluation, hence fuel ≥ 1, is all the loop does). -/
theorem c8_degenerate_empty_plan (shuffles : ℕ → List MediaInfo) (fuel : ℕ)
    (videos : List MediaInfo) (target : ℚ) :
    (videos = [] → create_video_list_file shuffles fuel videos target = some []) ∧
    (target ≤ 0 → 1 ≤ fuel →
      create_video_list_file shuffles fuel videos target = some []) := by
  constructor
  · intro h
    simp [create_video_list_file, h]
  · intro ht hf
    by_cases hv : videos = []
    · simp [create_video_list_file, hv]
    · obtain ⟨f, rfl⟩ : ∃ f, fuel = f + 1 := ⟨fuel - 1, by omega⟩
      rw [create_video_list_file, if_neg hv]
      simp only [planLoop, if_neg (not_lt.mpr ht)]
      rfl

/-- Claim C8 witness: empty input list, and a one-clip list with target −1. -/
theorem c8_degenerate_empty_plan_witness :
    create_video_list_file (fun _ => []) 3 [] 5 = some [] ∧
    create_video_list_file (fun _ => [⟨"c.mp4", 2, 1920, 1080⟩]) 3
      [⟨"c.mp4", 2, 1920, 1080⟩] (-1) = some [] :=
  ⟨(c8_degenerate_empty_plan (fun _ => []) 3 [] 5).1 rfl,
   (c8_degenerate_empty_plan (fun _ => [⟨"c.mp4", 2, 1920, 1080⟩]) 3
      [⟨"c.mp4", 2, 1920, 1080⟩] (-1)).2 (by norm_num) (by norm_num)⟩

/-- Claim C10: with a non-empty clip list whose every probed duration is 0 and
a positive target, the accumulation loop never terminates — the running total
never moves, so the guard never becomes false, whatever the fuel. -/
theorem c10_zero_durations_diverge (shuffles : ℕ → List MediaInfo)
    (videos : List MediaInfo) (target : ℚ) (fuel : ℕ)
    (hne : videos ≠ []) (hzero : ∀ i ∈ videos, i.duration = 0) (htgt : 0 < target)
    (hperm : ∀ n, (shuffles n).Perm videos) :
    create_video_list_file shuffles fuel videos target = none := by
  rw [create_video_list_file, if_neg hne,
    planLoop_all_zero shuffles videos target hperm hzero htgt fuel 0 []]
  rfl

/-- Claim C10 witness: one clip whose probe degraded to the duration-0
sentinel, target 1 second, any concrete fuel. -/
theorem c10_zero_durations_diverge_witness :
    create_video_list_file (fun _ => [⟨"d.mp4", 0, 1920, 1080⟩]) 7
      [⟨"d.mp4", 0, 1920, 1080⟩] 1 = none :=
  c10_zero_durations_diverge (fun _ => [⟨"d.mp4", 0, 1920, 1080⟩])
    [⟨"d.mp4", 0, 1920, 1080⟩] 1 7 (by simp)
    (by intro i hi; simp only [List.mem_singleton] at hi; rw [hi]) (by norm_num)
    (fun _ => List.Perm.refl _)

/-! ## Theorems for the composer claims C2 and C7 -/

/-- Claim C2 (code bug): when the remaining runway `target − introDuration` is
not positive (or the content total is 0), the `elif scaled_videos:` branch at
vid.py line 487 reassigns `input_videos = scaled_videos`, dropping the intro
that was appended first — although the branch's own comment reads "If no intro
but we have content videos", and the docstring promises the intro at the
beginning.  Concrete run: intro of 60 s, one 10-second content clip, target
60 s: the composed sequence is just the content clip and contains no intro. -/
theorem c2_code_bug_eval :
    build_input_videos (some "scaled_intro.mp4") ["scaled_0.mp4"] 60 10 60
        = ["scaled_0.mp4"] ∧
    "scaled_intro.mp4" ∉
      build_input_videos (some "scaled_intro.mp4") ["scaled_0.mp4"] 60 10 60 := by
  constructor
  · norm_num [build_input_videos]
  · norm_num [build_input_videos]
    decide

/-- Claim C7: when the content total is positive and strictly below the
remaining runway, the composed input list is the intro (if any) followed by
exactly `ceil(remaining / total)` whole copies of the content sequence, and
the concat encode's `-t` truncation brings the output duration to exactly the
target (the assembled inputs cover it).  `d` assigns each scaled file its
probed duration. -/
theorem c7_loop_count (scaled_intro : Option String) (scaled_videos : List String)
    (d : String → ℚ) (intro_duration total_content_duration target_duration : ℚ)
    (hc : (scaled_videos.map d).sum = total_content_duration)
    (hi : (scaled_intro.toList.map d).sum = intro_duration)
    (hpos : 0 < total_content_duration)
    (hlt : total_content_duration < target_duration - intro_duration) :
    build_input_videos scaled_intro scaled_videos intro_duration
        total_content_duration target_duration
      = scaled_intro.toList ++
        (List.replicate
          (⌈(target_duration - intro_duration) / total_content_duration⌉).toNat
          scaled_videos).flatten ∧
    concat_stage_duration
        ((build_input_videos scaled_intro scaled_videos intro_duration
          total_content_duration target_duration).map d) target_duration
      = target_duration := by
  have hrem : 0 < target_duration - intro_duration := lt_trans hpos hlt
  have hb : build_input_videos scaled_intro scaled_videos intro_duration
      total_content_duration target_duration
      = scaled_intro.toList ++
        (List.replicate
          (⌈(target_duration - intro_duration) / total_content_duration⌉).toNat
          scaled_videos).flatten := by
    simp only [build_input_videos]
    rw [if_pos ⟨hpos, hrem⟩, if_pos hlt]
    cases scaled_intro <;> rfl
  refine ⟨hb, ?_⟩
  rw [concat_stage_duration, hb, List.map_append, List.sum_append,
    sum_map_flatten_replicate, hi, hc]
  have hceil : (target_duration - intro_duration) / total_content_duration ≤
      (⌈(target_duration - intro_duration) / total_content_duration⌉ : ℚ) :=
    Int.le_ceil _
  have hcpos : 0 < ⌈(target_duration - intro_duration) / total_content_duration⌉ :=
    Int.ceil_pos.mpr (div_pos hrem hpos)
  have hcast : ((⌈(target_duration - intro_duration) / total_content_duration⌉.toNat : ℕ) : ℚ)
      = (⌈(target_duration - intro_duration) / total_content_duration⌉ : ℚ) := by
    rw [← Int.cast_natCast]
    exact congrArg Int.cast (Int.toNat_of_nonneg hcpos.le)
  have hcovers : target_duration - intro_duration ≤
      (⌈(target_duration - intro_duration) / total_content_duration⌉.toNat : ℚ) *
        total_content_duration := by
    rw [hcast]
    calc target_duration - intro_duration
        = (target_duration - intro_duration) / total_content_duration *
            total_content_duration := (div_mul_cancel₀ _ (ne_of_gt hpos)).symm
      _ ≤ (⌈(target_duration - intro_duration) / total_content_duration⌉ : ℚ) *
            total_content_duration := mul_le_mul_of_nonneg_right hceil hpos.le
  exact min_eq_right (by linarith)

/-- Claim C7 witness: no intro, one 1-second clip, target 2 s — two whole
copies are appended and the truncated duration is exactly 2. -/
theorem c7_loop_count_witness :
    build_input_videos none ["a.mp4"] 0 1 2 = ["a.mp4", "a.mp4"] ∧
    concat_stage_duration
        ((build_input_videos none ["a.mp4"] 0 1 2).map (fun _ => (1 : ℚ))) 2 = 2 := by
  have h := c7_loop_count none ["a.mp4"] (fun _ => (1 : ℚ)) 0 1 2 (by norm_num)
    (by norm_num) (by norm_num) (by norm_num)
  refine ⟨?_, h.2⟩
  rw [h.1]
  norm_num
  rfl

/-! ## Theorems for the pipeline-tail claims C1, C4, C6 -/

/-- Claim C1 (code bug): script file present, audio file absent, every
subprocess succeeding — `combine_videos_with_audio` takes the no-audio branch
(vid.py lines 567-571), which copies the silent composed video to the output
path without ever invoking `add_scrolling_text`, although its own docstring
(line 352) promises "If a script.txt file exists in the output_dir, scrolling
text will be added".  The overlay is in fact skipped whenever the audio is
absent, not only when no script is supplied. -/
theorem c1_code_bug_eval :
    (combine_videos_with_audio envNoAudioScript "out" "final_video.mp4").overlayCalled
        = false ∧
    (combine_videos_with_audio envNoAudioScript "out" "final_video.mp4").result
        = some "final_video.mp4" ∧
    envNoAudioScript.scriptExists = true := by
  refine ⟨rfl, rfl, rfl⟩

/-- Claim C4 counterexample: audio and script present, all earlier stages
succeed, the overlay's ffmpeg fails — the run still returns the output
filename rather than a failure signal, and the overlay stage's write was
directed at the canonical output path itself (not a temporary artifact), with
no completed write there. -/
theorem c4_counterexample :
    (combine_videos_with_audio envOverlayFail "out" "final_video.mp4").result
        = some "final_video.mp4" ∧
    (combine_videos_with_audio envOverlayFail "out" "final_video.mp4").writeTarget
        = some ("out" ++ "/" ++ "final_video.mp4") ∧
    (combine_videos_with_audio envOverlayFail "out" "final_video.mp4").writeComplete
        = false := by
  refine ⟨rfl, rfl, rfl⟩

/-- Claim C4 amended: failures of the scaling, concatenation, or muxing
subprocesses abort the run with a `None` result before any write is directed
at the canonical output path; but the caption-overlay stage does not work on a
temporary artifact — its ffmpeg writes directly to the canonical output path —
and when it fails the run still returns the output filename (the overlay's
`None` is discarded at vid.py line 560), so the write at the canonical path is
complete only when the overlay succeeded. -/
theorem c4_amended (e : CombineEnv) (output_dir output_file : String) :
    ((¬ e.contentScaleOk ∨ ¬ e.concatOk ∨ (e.introExists ∧ ¬ e.introScaleOk) ∨
        (e.audioGiven ∧ e.audioExists ∧ ¬ e.muxOk)) →
      (combine_videos_with_audio e output_dir output_file).result = none ∧
      (combine_videos_with_audio e output_dir output_file).writeTarget = none) ∧
    (e.videoFiles ≠ [] → (e.introExists → e.introScaleOk) → e.contentScaleOk →
      e.concatOk → e.audioGiven → e.audioExists → e.muxOk → e.scriptExists →
      (combine_videos_with_audio e output_dir output_file).overlayCalled = true ∧
      (combine_videos_with_audio e output_dir output_file).writeTarget =
        some (output_dir ++ "/" ++ output_file) ∧
      (combine_videos_with_audio e output_dir output_file).result = some output_file ∧
      (combine_videos_with_audio e output_dir output_file).writeComplete = e.overlayOk) := by
  constructor
  · intro h
    rcases h with h | h | ⟨h1, h2⟩ | ⟨h1, h2, h3⟩ <;>
      (simp only [combine_videos_with_audio]; split_ifs <;> simp_all)
  · intro hne hin hcs hcc hag hae hmx hsc
    simp only [combine_videos_with_audio]
    rw [if_neg hne, if_neg (by simp_all), if_neg (by simp_all), if_neg (by simp_all),
      if_pos ⟨hag, hae⟩, if_neg (by simp_all), if_pos hsc]
    exact ⟨rfl, rfl, rfl, rfl⟩

/-- Claim C4 amended, witness: the all-success environment with the overlay
failing exercises the swallowed-failure conjunct; a concat failure exercises
the abort conjunct. -/
theorem c4_amended_witness :
    ((combine_videos_with_audio { envAllOk with concatOk := false } "o" "f.mp4").result
        = none ∧
      (combine_videos_with_audio { envAllOk with concatOk := false } "o" "f.mp4").writeTarget
        = none) ∧
    ((combine_videos_with_audio envOverlayFail "o" "f.mp4").overlayCalled = true ∧
      (combine_videos_with_audio envOverlayFail "o" "f.mp4").writeTarget =
        some ("o" ++ "/" ++ "f.mp4") ∧
      (combine_videos_with_audio envOverlayFail "o" "f.mp4").result = some "f.mp4" ∧
      (combine_videos_with_audio envOverlayFail "o" "f.mp4").writeComplete =
        envOverlayFail.overlayOk) :=
  ⟨(c4_amended { envAllOk with concatOk := false } "o" "f.mp4").1 (by simp [envAllOk]),
   (c4_amended envOverlayFail "o" "f.mp4").2 (by simp [envOverlayFail, envAllOk])
     (by simp [envOverlayFail, envAllOk]) (by simp [envOverlayFail, envAllOk])
     (by simp [envOverlayFail, envAllOk]) (by simp [envOverlayFail, envAllOk])
     (by simp [envOverlayFail, envAllOk]) (by simp [envOverlayFail, envAllOk])
     (by simp [envOverlayFail, envAllOk])⟩

/-- Claim C6 counterexample: on a fully successful run with
`output_dir = "out"` and `output_file = "final_video.mp4"`, the function
returns the bare `output_file`, while the final file was written at the joined
path `output_dir/output_file`; the two differ, so the return value is not the
path at which the file was written. -/
theorem c6_counterexample :
    (combine_videos_with_audio envAllOk "out" "final_video.mp4").result
        = some "final_video.mp4" ∧
    (combine_videos_with_audio envAllOk "out" "final_video.mp4").writeTarget
        = some ("out" ++ "/" ++ "final_video.mp4") ∧
    ("final_video.mp4" : String) ≠ "out" ++ "/" ++ "final_video.mp4" := by
  refine ⟨rfl, rfl, by decide⟩

/-- Claim C6 amended: when every external subprocess stage succeeds,
`combine_videos_with_audio` writes the final file at `output_dir/output_file`
but returns only the bare `output_file` name; when the scaling, concatenation,
or muxing subprocesses fail it returns `None`. -/
theorem c6_amended (e : CombineEnv) (output_dir output_file : String)
    (hne : e.videoFiles ≠ []) (hin : e.introExists → e.introScaleOk)
    (hcs : e.contentScaleOk) (hcc : e.concatOk)
    (hmx : e.audioGiven → e.audioExists → e.muxOk) :
    (combine_videos_with_audio e output_dir output_file).result = some output_file ∧
    (combine_videos_with_audio e output_dir output_file).writeTarget =
      some (output_dir ++ "/" ++ output_file) := by
  simp only [combine_videos_with_audio]
  rw [if_neg hne, if_neg (by simp_all), if_neg (by simp_all), if_neg (by simp_all)]
  by_cases ha : e.audioGiven ∧ e.audioExists
  · rw [if_pos ha, if_neg (by simp_all [ha.1, ha.2])]
    by_cases hs : e.scriptExists
    · rw [if_pos hs]
      exact ⟨rfl, rfl⟩
    · rw [if_neg hs]
      exact ⟨rfl, rfl⟩
  · rw [if_neg ha]
    exact ⟨rfl, rfl⟩

/-- Claim C6 amended, witness: the all-success environment. -/
theorem c6_amended_witness :
    (combine_videos_with_audio envAllOk "out" "final_video.mp4").result
        = some "final_video.mp4" ∧
    (combine_videos_with_audio envAllOk "out" "final_video.mp4").writeTarget
        = some ("out" ++ "/" ++ "final_video.mp4") :=
  c6_amended envAllOk "out" "final_video.mp4" (by simp [envAllOk])
    (by simp [envAllOk]) (by simp [envAllOk]) (by simp [envAllOk])
    (fun _ _ => by simp [envAllOk])

end NewsVid
